import Mathlib

/-!
Verification development for the VSIR inventory-receiving module
(`src/unnamed/part_000`, a React/TypeScript component).

The module's pure logic is shallowly embedded here:

* JavaScript runtime values that flow through the untyped parts of the code
  (Firestore documents, heterogeneous "order" objects) are modelled by the
  inductive type `JSVal`; `String(...)` coercion, truthiness, `||` and
  property access are modelled by `jsToString`, `truthy`, `jsOr`, `jsGet`.
  JavaScript numbers are restricted to integers (no claim depends on
  fractional values or NaN), and `trim` / `toLowerCase` are modelled by
  Lean's `String.trim` / `String.toLower` (they agree on ASCII data).
* Typed records (`VSRIRecord`, the edit-form state `ItemInput`, item-master
  entries) are modelled as structures with the field types declared by the
  TypeScript interfaces.
* Reference documents (`vendorDeptOrders`, `vendorIssues`, `psirData`) are
  `any`-typed in the source; the fields the embedded functions touch are
  modelled explicitly: `JSVal` where the source guards against non-string
  shapes (`?.`, `||`, `String(...)`), plain `String` where the source uses
  the value as a string.
* Effectful handlers are modelled as pure functions returning the list of
  store writes/deletes they issue (the store itself is out of scope).
* Nondeterministic fresh ids (`Math.random().toString(36)`) are omitted from
  the constructed-record model: no claim mentions the generated id.
* The current year (`new Date().getFullYear()`) is a parameter.
-/

namespace VSIR

/-- Model of a JavaScript runtime value, restricted to the shapes that occur
in the module's data: primitives, arrays and plain objects.  Objects are
association lists of (unique) string keys in insertion order. -/
inductive JSVal where
  | undefined : JSVal
  | null : JSVal
  | bool (b : Bool) : JSVal
  | num (n : Int) : JSVal
  | str (s : String) : JSVal
  | arr (elems : List JSVal) : JSVal
  | obj (fields : List (String × JSVal)) : JSVal

/-- JavaScript `String(v)` for the values of our model.  Array elements are
stringified recursively, with `null`/`undefined` elements becoming empty
strings, joined by commas; objects stringify to `"[object Object]"`. -/
def jsToString : JSVal → String
  | .undefined => "undefined"
  | .null => "null"
  | .bool b => if b then "true" else "false"
  | .num n => toString n
  | .str s => s
  | .arr elems => String.intercalate "," (jsArrStrings elems)
  | .obj _ => "[object Object]"
where
  /-- Stringification of the elements of an array, as JavaScript
  `Array.prototype.toString` does it. -/
  jsArrStrings : List JSVal → List String
    | [] => []
    | .undefined :: vs => "" :: jsArrStrings vs
    | .null :: vs => "" :: jsArrStrings vs
    | v :: vs => jsToString v :: jsArrStrings vs

/-- JavaScript truthiness of a value of our model (`NaN` is not modelled). -/
def truthy : JSVal → Bool
  | .undefined => false
  | .null => false
  | .bool b => b
  | .num n => n != 0
  | .str s => s ≠ ""
  | .arr _ => true
  | .obj _ => true

/-- JavaScript `a || b`. -/
def jsOr (a b : JSVal) : JSVal :=
  if truthy a then a else b

/-- ASCII lower-casing of one character — the action of JavaScript
`toLowerCase` on ASCII data (the module's keys and codes are ASCII). -/
def lowerChar (c : Char) : Char :=
  if 'A' ≤ c && c ≤ 'Z' then Char.ofNat (c.toNat + 32) else c

/-- `String.prototype.toLowerCase`, restricted to ASCII case mapping. -/
def jsToLower (s : String) : String :=
  ⟨s.data.map lowerChar⟩

/-- The ASCII whitespace characters removed by `String.prototype.trim`. -/
def isTrimWS (c : Char) : Bool :=
  c == ' ' || c == '\t' || c == '\n' || c == '\r' || c == '\x0b' || c == '\x0c'

/-- `String.prototype.trim`, restricted to ASCII whitespace. -/
def jsTrim (s : String) : String :=
  ⟨((s.data.dropWhile isTrimWS).reverse.dropWhile isTrimWS).reverse⟩

/-- Property read on an object field list: first binding wins (JavaScript
object keys are unique, so the list is assumed duplicate-free). -/
def jsGetFields (fields : List (String × JSVal)) (k : String) : JSVal :=
  match fields.find? (fun p => p.1 == k) with
  | some p => p.2
  | none => .undefined

/-- JavaScript property read `v[k]` for named (non-index) keys.  Arrays and
primitives have no named own properties in our model. -/
def jsGet (v : JSVal) (k : String) : JSVal :=
  match v with
  | .obj fields => jsGetFields fields k
  | _ => .undefined

/-- JavaScript strict equality `v === s` against a string literal/variable:
true exactly when `v` is the same string. -/
def jsStrictEqStr (v : JSVal) (s : String) : Bool :=
  match v with
  | .str t => t == s
  | _ => false

/-- The primary entity (TypeScript interface `VSRIRecord`). -/
structure VSRIRecord where
  id : String
  receivedDate : String
  indentNo : String
  poNo : String
  oaNo : String
  purchaseBatchNo : String
  vendorBatchNo : String
  dcNo : String
  invoiceDcNo : String
  vendorName : String
  itemName : String
  itemCode : String
  qtyReceived : Int
  okQty : Int
  reworkQty : Int
  rejectQty : Int
  grnNo : String
  remarks : String
deriving DecidableEq, Repr

/-- The in-progress edit form state (`Omit<VSRIRecord, 'id'>`). -/
structure ItemInput where
  receivedDate : String
  indentNo : String
  poNo : String
  oaNo : String
  purchaseBatchNo : String
  vendorBatchNo : String
  dcNo : String
  invoiceDcNo : String
  vendorName : String
  itemName : String
  itemCode : String
  qtyReceived : Int
  okQty : Int
  reworkQty : Int
  rejectQty : Int
  grnNo : String
  remarks : String
deriving DecidableEq, Repr

/-- A vendor-department order document (`any`-typed in the source); only the
fields read by the embedded functions are modelled.  All of them pass
through `?.` / `||` / `String(...)` guards in the source, so they are kept
as raw `JSVal`s. -/
structure DeptOrder where
  materialPurchasePoNo : JSVal
  vendorBatchNo : JSVal
  oaNo : JSVal
  batchNo : JSVal
  vendorName : JSVal

/-- A vendor-issue document (`any`-typed in the source); only the fields
read by the embedded functions are modelled. -/
structure VendorIssue where
  materialPurchasePoNo : JSVal
  vendorBatchNo : JSVal

/-- A prior-shipment (PSIR) document; the auto-fill rules read `poNo`
(through `String(...).trim()`) and `indentNo` (through a truthiness guard),
both of which are strings in practice, so they are modelled as strings with
`""` standing for an absent field. -/
structure Psir where
  poNo : String
  indentNo : String
deriving DecidableEq, Repr

/-- An item-master entry; the subscription filters the collection down to
entries whose `itemName` and `itemCode` are strings, so the typed shape is
exact. -/
structure ItemEntry where
  itemName : String
  itemCode : String
deriving DecidableEq, Repr

/-!  ### Key & matching utilities  -/

/-- `makeKey` from the source:
`` `${String(poNo).trim().toLowerCase()}|${String(itemCode).trim().toLowerCase()}` ``.
Inputs are arbitrary JavaScript values; `String(...)` makes the function
total. -/
def makeKey (poNo itemCode : JSVal) : String :=
  jsToLower (jsTrim (jsToString poNo)) ++ "|" ++ jsToLower (jsTrim (jsToString itemCode))

/-- The business key of a typed record, `makeKey(rec.poNo, rec.itemCode)`. -/
def recKey (r : VSRIRecord) : String :=
  makeKey (.str r.poNo) (.str r.itemCode)

/-!  ### Load deduplication

`deduplicateVSIRRecords` inserts every record into a JavaScript `Map` keyed
by the business key and returns the map's values.  `Map.set` replaces the
value of an existing key in place (keeping its insertion position) and
appends unknown keys; `Map.values()` iterates in insertion order.  The map
is modelled as an association list with exactly those semantics. -/

/-- JavaScript `Map.set` on an insertion-ordered association list. -/
def mapSet (m : List (String × VSRIRecord)) (k : String) (v : VSRIRecord) :
    List (String × VSRIRecord) :=
  if m.any (fun p => p.1 == k) then
    m.map (fun p => if p.1 == k then (k, v) else p)
  else
    m ++ [(k, v)]

/-- `deduplicateVSIRRecords` from the source. -/
def deduplicateVSIRRecords (arr : List VSRIRecord) : List VSRIRecord :=
  (arr.foldl (fun m rec => mapSet m (recKey rec) rec) []).map (fun p => p.2)

/-- Lookup in the association-list model of the `Map`. -/
def lookupKey (m : List (String × VSRIRecord)) (k : String) : Option VSRIRecord :=
  (m.find? (fun p => p.1 == k)).map (fun p => p.2)

/-- The keys of the association-list model, in insertion order. -/
def keysOf (m : List (String × VSRIRecord)) : List String :=
  m.map (fun p => p.1)

/-- The last record of `l` whose business key is `k` (the survivor that
last-write-wins deduplication must keep), if any. -/
def lastWithKey (l : List VSRIRecord) (k : String) : Option VSRIRecord :=
  (l.filter (fun r => recKey r == k)).getLast?

/-!  ### Batch number allocator

`generateVendorBatchNo` matches each `vendorBatchNo` field against the
regular expression `` `${yy}/V(\d+)` `` — unanchored, so it finds the
leftmost occurrence of `yy/V` followed by at least one decimal digit
anywhere in the string, captures the maximal digit run, and `parseInt`s it.
The regex search is embedded as an explicit scan over character lists. -/

/-- Whether `pat` is a prefix of `cs`. -/
def listStartsWith : List Char → List Char → Bool
  | _, [] => true
  | [], _ :: _ => false
  | c :: cs, p :: ps => c == p && listStartsWith cs ps

/-- `parseInt` on a nonempty run of decimal digits. -/
def digitsToNat (ds : List Char) : Nat :=
  ds.foldl (fun n c => n * 10 + (c.toNat - 48)) 0

/-- Attempt to match `pat` followed by at least one digit at the head of
`cs`; on success return the value of the maximal digit run. -/
def matchVAt (pat cs : List Char) : Option Nat :=
  if listStartsWith cs pat then
    let ds := (cs.drop pat.length).takeWhile Char.isDigit
    if ds.isEmpty then none else some (digitsToNat ds)
  else none

/-- Leftmost match of `pat` followed by at least one digit, anywhere in the
string — the semantics of `s.match(new RegExp(pat + "(\\d+)"))` for a
metacharacter-free `pat`. -/
def scanFirst (pat : List Char) : List Char → Option Nat
  | [] => none
  | c :: cs =>
    match matchVAt pat (c :: cs) with
    | some n => some n
    | none => scanFirst pat cs

/-- The number extracted from one `vendorBatchNo` field of a reference
document: `d.vendorBatchNo?.match?.(...)` short-circuits unless the field
is a string that contains a match. -/
def vbMatch (yy : String) (v : JSVal) : Option Nat :=
  match v with
  | .str s => scanFirst (yy ++ "/V").toList s.toList
  | _ => none

/-- The two-digit year `String(new Date().getFullYear()).slice(2)`. -/
def twoDigitYear (year : Nat) : String :=
  (toString year).drop 2

/-- `generateVendorBatchNo` from the source, with the current year as a
parameter.  Folds `Math.max` over the matches found in the local records
and then in the department orders, starting from `0`, and returns
`` `${yy}/V${maxNum + 1}` ``. -/
def generateVendorBatchNo (year : Nat) (records : List VSRIRecord)
    (vendorDeptOrders : List DeptOrder) : String :=
  let yy := twoDigitYear year
  let m1 := records.foldl
    (fun acc r =>
      match scanFirst (yy ++ "/V").toList r.vendorBatchNo.toList with
      | some n => max acc n
      | none => acc) 0
  let m2 := vendorDeptOrders.foldl
    (fun acc d =>
      match vbMatch yy d.vendorBatchNo with
      | some n => max acc n
      | none => acc) m1
  yy ++ "/V" ++ toString (m2 + 1)

/-- Specification-side view: the batch numbers for year `yy` in use across
both collections, in scan order. -/
def batchNosInUse (yy : String) (records : List VSRIRecord)
    (vendorDeptOrders : List DeptOrder) : List Nat :=
  (records.map (fun r => JSVal.str r.vendorBatchNo)
    ++ vendorDeptOrders.map (fun d => d.vendorBatchNo)).filterMap (vbMatch yy)

/-- `getVendorBatchNoForPO` from the source: an absent PO yields `''`;
otherwise the first department order with `materialPurchasePoNo === poNo`
is consulted, and its `vendorBatchNo` returned if truthy; failing that the
same is done over the vendor issues; failing that `''`. -/
def getVendorBatchNoForPO (poNo : String) (vendorDeptOrders : List DeptOrder)
    (vendorIssues : List VendorIssue) : JSVal :=
  if poNo = "" then .str ""
  else
    let fromIssues : JSVal :=
      match vendorIssues.find? (fun i => jsStrictEqStr i.materialPurchasePoNo poNo) with
      | some i => if truthy i.vendorBatchNo then i.vendorBatchNo else .str ""
      | none => .str ""
    match vendorDeptOrders.find? (fun d => jsStrictEqStr d.materialPurchasePoNo poNo) with
    | some d => if truthy d.vendorBatchNo then d.vendorBatchNo else fromIssues
    | none => fromIssues

/-!  ### Auto-import (`runImport` and its order/item extraction helpers)  -/

/-- Whether `pat` occurs anywhere in `hay`. -/
def listHasSub (hay pat : List Char) : Bool :=
  match hay with
  | [] => pat.isEmpty
  | _ :: rest => listStartsWith hay pat || listHasSub rest pat

/-- `/po/i.test(k)`: the key contains `po` case-insensitively. -/
def keyHasPo (k : String) : Bool :=
  listHasSub (jsToLower k).toList "po".toList

/-- The fixed priority list of PO-number field names in `getOrderPoNo`. -/
def poCandidates : List String :=
  ["poNo", "materialPurchasePoNo", "po_no", "poNumber", "purchasePoNo", "poNumberStr"]

/-- `getOrderPoNo` from the source.  Non-objects (including `null` and
arrays, whose own keys are numeric indices) yield nothing; otherwise the
first truthy candidate field wins, then the first truthy field whose key
matches `/po/i`.  Every returned value is truthy, so the caller's
`if (!poNo) continue` guard is exactly the `none` case. -/
def getOrderPoNo (order : JSVal) : Option JSVal :=
  match order with
  | .obj fields =>
    match poCandidates.findSome?
        (fun k => let v := jsGetFields fields k; if truthy v then some v else none) with
    | some v => some v
    | none =>
      match fields.find? (fun p => keyHasPo p.1 && truthy p.2) with
      | some p => some p.2
      | none => none
  | _ => none

/-- `looksLikeItem` from the source: an object exposing one of the
item-identifying keys, case-insensitively.  Arrays have only index keys
and fail the test. -/
def looksLikeItem (obj : JSVal) : Bool :=
  match obj with
  | .obj fields =>
    let keys := fields.map (fun p => jsToLower p.1)
    keys.contains "itemcode" || keys.contains "item_name" ||
      keys.contains "itemname" || keys.contains "model"
  | _ => false

/-- The fixed priority list of line-item container field names. -/
def itemContainerKeys : List String :=
  ["items", "materials", "products", "lines", "orderItems", "itemsList"]

/-- `getOrderItems` from the source.  For an object: itself if it looks
like a line item; else the first non-empty array under a known container
key; else the first non-empty array value whose head looks like a line
item.  For an array (which is `typeof 'object'`, has no named properties,
and whose `Object.values` are its elements): the first non-empty array
element with an item-like head, else the array itself if its head is
item-like.  Anything else yields `[]`. -/
def getOrderItems (order : JSVal) : List JSVal :=
  match order with
  | .obj fields =>
    if looksLikeItem (.obj fields) then [.obj fields]
    else
      match itemContainerKeys.findSome?
          (fun k =>
            match jsGetFields fields k with
            | .arr (x :: xs) => some (x :: xs)
            | _ => none) with
      | some xs => xs
      | none =>
        match fields.findSome?
            (fun p =>
              match p.2 with
              | .arr (x :: xs) => if looksLikeItem x then some (x :: xs) else none
              | _ => none) with
        | some xs => xs
        | none => []
  | .arr elems =>
    match elems.findSome?
        (fun v =>
          match v with
          | .arr (x :: xs) => if looksLikeItem x then some (x :: xs) else none
          | _ => none) with
    | some xs => xs
    | none =>
      match elems with
      | x :: _ => if looksLikeItem x then elems else []
      | [] => []
  | _ => []

/-- The record constructed by `runImport` for one line item (the randomly
generated `id` is omitted; no claim mentions it).  `poNo`, `itemName`,
`itemCode` and `qtyReceived` hold the raw JavaScript values the source
stores. -/
structure NewRec where
  poNo : JSVal
  oaNo : JSVal
  purchaseBatchNo : JSVal
  itemName : JSVal
  itemCode : JSVal
  qtyReceived : JSVal

/-- The per-item body of `runImport`'s inner loop: skip when the business
key is already in the combination set captured at run start, else build the
new record. -/
def importItem (poNo oaNo batchNo : JSVal) (currentCombinations : List String)
    (item : JSVal) : Option NewRec :=
  let itemCode := jsOr (jsGet item "itemCode") (.str "")
  let key := makeKey poNo itemCode
  if currentCombinations.contains key then none
  else
    some
      { poNo := poNo
        oaNo := oaNo
        purchaseBatchNo := batchNo
        itemName := jsOr (jsGet item "itemName") (jsOr (jsGet item "model") (.str ""))
        itemCode := itemCode
        qtyReceived := jsOr (jsGet item "qty") (.num 0) }

/-- The per-order body of `runImport`'s outer loop. -/
def importOrder (vendorDeptOrders : List DeptOrder) (currentCombinations : List String)
    (order : JSVal) : List NewRec :=
  match getOrderPoNo order with
  | none => []
  | some poNo =>
    match getOrderItems order with
    | [] => []
    | item :: items =>
      let vendorDeptMatch := vendorDeptOrders.find?
        (fun v => jsTrim (jsToString v.materialPurchasePoNo) == jsTrim (jsToString poNo))
      let oaNo := jsOr (match vendorDeptMatch with
        | some v => v.oaNo
        | none => .undefined) (.str "")
      let batchNo := jsOr (match vendorDeptMatch with
        | some v => v.batchNo
        | none => .undefined) (.str "")
      (item :: items).filterMap (importItem poNo oaNo batchNo currentCombinations)

/-- `runImport` from the source, as the list of records it adds to the
store, in order.  `currentCombinations` is `existingCombinationsRef.current`
captured once at run start — the set of business keys of the current record
set — and is never updated during the run. -/
def runImport (userUid : Option String) (providedSource : Option (List JSVal))
    (purchaseOrders purchaseData : List JSVal) (vendorDeptOrders : List DeptOrder)
    (currentCombinations : List String) : List NewRec :=
  match userUid with
  | none => []
  | some _ =>
    let sourceData := match providedSource with
      | some s => s
      | none => if purchaseOrders.isEmpty then purchaseData else purchaseOrders
    if sourceData.isEmpty then []
    else sourceData.flatMap (importOrder vendorDeptOrders currentCombinations)

/-!  ### Auto-delete rule  -/

/-- The auto-delete `useEffect`, as the list of record ids it deletes.
`confirmed` is the operator's answer to the `window.confirm` dialog (only
consulted when the rule fires).  Records whose `id` is falsy are skipped by
the `if (!rec?.id) return` guard. -/
def autoDeleteIds (autoDeleteEnabled : Bool) (userUid : Option String)
    (purchaseData : List JSVal) (records : List VSRIRecord) (confirmed : Bool) :
    List String :=
  if !autoDeleteEnabled || userUid.isNone then []
  else if purchaseData.length = 0 && records.length > 0 then
    if !confirmed then []
    else records.filterMap (fun rec => if rec.id = "" then none else some rec.id)
  else []

/-!  ### Auto-fill indent number from PSIR (table rule)  -/

/-- The per-record body of the auto-fill-indent rule.  Returns the
(possibly updated) record together with the flag recording whether the
update branch was taken (the source's `updated` accumulator). -/
def fillIndentOne (psirData : List Psir) (record : VSRIRecord) : VSRIRecord × Bool :=
  if record.poNo ≠ "" && record.indentNo = "" then
    match psirData.find? (fun p => jsTrim p.poNo == jsTrim record.poNo) with
    | some m =>
      if m.indentNo ≠ "" && m.indentNo != record.indentNo then
        ({ record with indentNo := m.indentNo }, true)
      else (record, false)
    | none => (record, false)
  else (record, false)

/-- The auto-fill-indent `useEffect`, as the new in-memory record set and
the list of `(id, payload)` update writes it issues.  When any record was
updated, the source calls `updateVSIRRecord` for **every** element of
`updatedRecords` with a truthy id — not only the changed ones. -/
def autoFillIndent (userUid : Option String) (psirData : List Psir)
    (records : List VSRIRecord) : List VSRIRecord × List (String × VSRIRecord) :=
  if userUid.isNone || psirData.isEmpty || records.isEmpty then (records, [])
  else
    let pairs := records.map (fillIndentOne psirData)
    let updatedRecords := pairs.map (fun p => p.1)
    let updated := pairs.any (fun p => p.2)
    if updated then
      (updatedRecords,
        updatedRecords.filterMap (fun rec => if rec.id = "" then none else some (rec.id, rec)))
    else (records, [])

/-!  ### Form state synchronizer  -/

/-- The form auto-fill-indent `useEffect` (fires when `itemInput.poNo`
changes): when the form has a PO number and PSIR data exists, the first
PSIR record matching the PO exactly (trimmed) with a truthy `indentNo`
overwrites the form's indent field — there is no emptiness check on the
current value. -/
def formIndentRule (itemInput : ItemInput) (psirData : List Psir) : ItemInput :=
  if itemInput.poNo = "" || psirData.isEmpty then itemInput
  else
    match psirData.find? (fun p => jsTrim p.poNo == jsTrim itemInput.poNo) with
    | some m =>
      if m.indentNo ≠ "" then { itemInput with indentNo := m.indentNo }
      else itemInput
    | none => itemInput

/-- The `itemName` branch of `handleChange`: set the chosen name and set
`itemCode` from the first item-master entry with exactly that name, or
clear it when none matches. -/
def handleChangeItemName (itemMaster : List ItemEntry) (value : String)
    (prev : ItemInput) : ItemInput :=
  let found := itemMaster.find? (fun item => item.itemName == value)
  { prev with
    itemName := value
    itemCode := match found with
      | some f => f.itemCode
      | none => "" }

/-!  ### Submit handler  -/

/-- The observable outcome of `handleSubmit`: a user-facing error (alert)
with no store write, or a single store write (`updateVSIRRecord` at an
existing record's id, or `addVSIRRecord`). -/
inductive SubmitResult where
  | errLogin : SubmitResult
  | errNoBatch : SubmitResult
  | updateRec (id : String) (payload : ItemInput) : SubmitResult
  | addRec (payload : ItemInput) : SubmitResult
deriving DecidableEq, Repr

/-- `handleSubmit` from the source.  The update payload is
`{ ...existing, ...finalInput }`: the form has every field of the record
except `id`, so the spread amounts to `finalInput` stored at the existing
record's id.  A non-string resolved batch value would be stored raw by the
source; it is stringified here (identity on actual strings). -/
def handleSubmit (userUid : Option String) (itemInput : ItemInput)
    (records : List VSRIRecord) (vendorDeptOrders : List DeptOrder)
    (vendorIssues : List VendorIssue) : SubmitResult :=
  match userUid with
  | none => .errLogin
  | some _ =>
    let hasInvoiceDcNo := jsTrim itemInput.invoiceDcNo ≠ ""
    let step : Option ItemInput :=
      if hasInvoiceDcNo && jsTrim itemInput.vendorBatchNo = "" && itemInput.poNo ≠ "" then
        let vb := getVendorBatchNoForPO itemInput.poNo vendorDeptOrders vendorIssues
        if truthy vb then some { itemInput with vendorBatchNo := jsToString vb }
        else none
      else if !hasInvoiceDcNo then some { itemInput with vendorBatchNo := "" }
      else some itemInput
    match step with
    | none => .errNoBatch
    | some finalInput =>
      let key := makeKey (.str finalInput.poNo) (.str finalInput.itemCode)
      match records.find? (fun r => recKey r == key) with
      | some existing => .updateRec existing.id finalInput
      | none => .addRec finalInput

/-!  ### Concrete example data (used by witnesses and counterexamples)  -/

/-- A record with every field empty/zero; concrete examples override the
fields they need. -/
def blankRec : VSRIRecord :=
  ⟨"", "", "", "", "", "", "", "", "", "", "", "", 0, 0, 0, 0, "", ""⟩

/-- A form state with every field empty/zero. -/
def blankInput : ItemInput :=
  ⟨"", "", "", "", "", "", "", "", "", "", "", 0, 0, 0, 0, "", ""⟩

/-- First record of the spec's deduplication example (`poNo:"PO1"`,
`itemCode:"A"`, `qty:1`). -/
def exA : VSRIRecord :=
  { blankRec with id := "a", poNo := "PO1", itemCode := "A", qtyReceived := 1 }

/-- Second record of the spec's deduplication example (`poNo:"po1"`,
`itemCode:"a"`, `qty:5`), sharing `exA`'s normalized business key. -/
def exB : VSRIRecord :=
  { blankRec with id := "b", poNo := "po1", itemCode := "a", qtyReceived := 5 }

/-- Record holding vendor batch number `24/V1`. -/
def vbRec1 : VSRIRecord := { blankRec with vendorBatchNo := "24/V1" }

/-- Record holding vendor batch number `24/V3`. -/
def vbRec3 : VSRIRecord := { blankRec with vendorBatchNo := "24/V3" }

/-- A source order whose item list repeats the same item code twice. -/
def dupOrder : JSVal :=
  .obj [("poNo", .str "P1"),
        ("items", .arr [.obj [("itemCode", .str "A")], .obj [("itemCode", .str "A")]])]

/-- The record `runImport` constructs for each of `dupOrder`'s two items. -/
def impRec : NewRec :=
  ⟨.str "P1", .str "", .str "", .str "", .str "A", .num 0⟩

/-- A form with an invoice/challan number but an empty PO number and empty
vendor batch number. -/
def inpC5 : ItemInput := { blankInput with invoiceDcNo := "DC1" }

/-- A form with an invoice/challan number, a PO number and an empty vendor
batch number. -/
def inpW5 : ItemInput := { blankInput with poNo := "P9", invoiceDcNo := "DC1" }

/-- A department order for a different PO. -/
def deptW5 : DeptOrder :=
  ⟨.str "OTHER", .str "24/V9", .undefined, .undefined, .undefined⟩

/-- A record whose indent number the PSIR rule can fill. -/
def recW1 : VSRIRecord := { blankRec with id := "1", poNo := "P1" }

/-- A record the PSIR rule leaves unchanged (different PO, indent set). -/
def recW2 : VSRIRecord := { blankRec with id := "2", poNo := "P2", indentNo := "X" }

/-- A PSIR document carrying an indent number for PO `P1`. -/
def psirW : Psir := ⟨"P1", "I1"⟩

/-- A PSIR document carrying indent `NEW` for PO `P1`. -/
def psirNew : Psir := ⟨"P1", "NEW"⟩

/-- A form that already holds an indent number for PO `P1`. -/
def form8 : ItemInput := { blankInput with poNo := "P1", indentNo := "OLD" }

/-- An item-master entry. -/
def entryW : ItemEntry := ⟨"Widget", "W1"⟩

/-!  ## Lemmas about the `Map` model and load deduplication  -/

theorem getLast?_cons_or {α : Type} (a : α) (l : List α) :
    (a :: l).getLast? = l.getLast?.or (some a) := by
  rw [List.getLast?_cons]
  cases l.getLast? <;> rfl

theorem lookupKey_nil (k' : String) : lookupKey [] k' = none := rfl

theorem lookupKey_cons (p : String × VSRIRecord) (rest : List (String × VSRIRecord))
    (k' : String) :
    lookupKey (p :: rest) k' = if p.1 = k' then some p.2 else lookupKey rest k' := by
  by_cases h : p.1 = k'
  · unfold lookupKey
    rw [List.find?_cons_of_pos _ (by simpa using h), if_pos h]
    rfl
  · unfold lookupKey
    rw [List.find?_cons_of_neg _ (by simpa using h), if_neg h]

theorem lookupKey_substMap (m : List (String × VSRIRecord)) (k k' : String)
    (v : VSRIRecord) :
    lookupKey (m.map (fun p => if p.1 == k then (k, v) else p)) k' =
      if k' = k then (if m.any (fun p => p.1 == k) then some v else none)
      else lookupKey m k' := by
  induction m with
  | nil => simp [lookupKey_nil]
  | cons p rest ih =>
    rw [List.map_cons, List.any_cons]
    by_cases hpk : p.1 = k
    · rw [if_pos (by simpa using hpk), lookupKey_cons]
      by_cases hk : k' = k
      · rw [if_pos hk.symm, if_pos hk]
        simp [hpk]
      · rw [if_neg (fun h : k = k' => hk h.symm), ih, if_neg hk, if_neg hk,
          lookupKey_cons, if_neg (fun h : p.1 = k' => hk (hpk ▸ h).symm)]
    · rw [if_neg (by simpa using hpk), lookupKey_cons]
      by_cases hpk' : p.1 = k'
      · have hk : ¬ k' = k := fun h => hpk (hpk' ▸ h ▸ rfl)
        rw [if_pos hpk', if_neg hk, lookupKey_cons, if_pos hpk']
      · rw [if_neg hpk', ih, lookupKey_cons, if_neg hpk']
        by_cases hk : k' = k
        · rw [if_pos hk, if_pos hk]
          have hb : (p.1 == k) = false := by simpa using hpk
          rw [hb, Bool.false_or]
        · rw [if_neg hk, if_neg hk]

theorem lookupKey_append_single (m : List (String × VSRIRecord)) (k k' : String)
    (v : VSRIRecord) (h : m.any (fun p => p.1 == k) = false) :
    lookupKey (m ++ [(k, v)]) k' = if k' = k then some v else lookupKey m k' := by
  induction m with
  | nil =>
    rw [List.nil_append, lookupKey_cons, lookupKey_nil]
    by_cases hk : k' = k
    · rw [if_pos hk.symm, if_pos hk]
    · rw [if_neg (fun hkk : k = k' => hk hkk.symm), if_neg hk]
  | cons q rest ih =>
    rw [List.any_cons, Bool.or_eq_false_iff] at h
    rw [List.cons_append, lookupKey_cons, ih h.2, lookupKey_cons]
    by_cases hq : q.1 = k'
    · have hk : ¬ k' = k := by
        intro hkk
        have : (q.1 == k) = true := by simp [hq, hkk]
        rw [h.1] at this
        cases this
      rw [if_pos hq, if_neg hk, if_pos hq]
    · rw [if_neg hq, if_neg hq]

theorem lookupKey_mapSet (m : List (String × VSRIRecord)) (k k' : String)
    (v : VSRIRecord) :
    lookupKey (mapSet m k v) k' = if k' = k then some v else lookupKey m k' := by
  unfold mapSet
  by_cases hany : m.any (fun p => p.1 == k)
  · rw [if_pos hany, lookupKey_substMap]
    by_cases hk : k' = k
    · rw [if_pos hk, if_pos hk, if_pos hany]
    · rw [if_neg hk, if_neg hk]
  · have hany' : m.any (fun p => p.1 == k) = false := Bool.of_not_eq_true hany
    rw [if_neg hany, lookupKey_append_single _ _ _ _ hany']

theorem keysOf_mapSet (m : List (String × VSRIRecord)) (k : String) (v : VSRIRecord) :
    keysOf (mapSet m k v) =
      if m.any (fun p => p.1 == k) then keysOf m else keysOf m ++ [k] := by
  unfold mapSet keysOf
  by_cases hany : m.any (fun p => p.1 == k)
  · rw [if_pos hany, if_pos hany, List.map_map]
    refine List.map_congr_left ?_
    intro p _
    by_cases hpk : p.1 = k
    · simp [hpk]
    · simp [hpk]
  · rw [if_neg hany, if_neg hany, List.map_append]
    rfl

theorem nodup_keysOf_mapSet (m : List (String × VSRIRecord)) (k : String)
    (v : VSRIRecord) (h : (keysOf m).Nodup) : (keysOf (mapSet m k v)).Nodup := by
  rw [keysOf_mapSet]
  by_cases hany : m.any (fun p => p.1 == k)
  · rwa [if_pos hany]
  · rw [if_neg hany, List.nodup_append]
    refine ⟨h, List.nodup_singleton k, ?_⟩
    intro a ha hk
    simp only [List.mem_singleton] at hk
    rcases List.mem_map.mp ha with ⟨p, hp, hpk⟩
    have hk2 : m.any (fun q => q.1 == k) = true :=
      List.any_eq_true.mpr ⟨p, hp, by simp [hpk, hk]⟩
    rw [hk2] at hany
    exact hany rfl

theorem mapSet_forall {Q : String × VSRIRecord → Prop}
    (m : List (String × VSRIRecord)) (k : String) (v : VSRIRecord)
    (hm : ∀ p ∈ m, Q p) (hkv : Q (k, v)) : ∀ p ∈ mapSet m k v, Q p := by
  intro p hp
  unfold mapSet at hp
  by_cases hany : m.any (fun q => q.1 == k)
  · rw [if_pos hany] at hp
    rcases List.mem_map.mp hp with ⟨q, hq, hqp⟩
    by_cases hqk : q.1 = k
    · simp only [hqk, beq_self_eq_true, if_pos] at hqp
      exact hqp ▸ hkv
    · have : (q.1 == k) = false := by simpa using hqk
      simp only [this, Bool.false_eq_true, if_neg, ite_false] at hqp
      exact hqp ▸ hm q hq
  · rw [if_neg hany] at hp
    rcases List.mem_append.mp hp with h | h
    · exact hm p h
    · simp only [List.mem_singleton] at h
      exact h ▸ hkv

/-- The accumulator step of `deduplicateVSIRRecords`. -/
def dedupStep (m : List (String × VSRIRecord)) (rec : VSRIRecord) :
    List (String × VSRIRecord) :=
  mapSet m (recKey rec) rec

theorem dedup_eq_foldl (arr : List VSRIRecord) :
    deduplicateVSIRRecords arr = (arr.foldl dedupStep []).map (fun p => p.2) := rfl

theorem lookupKey_foldl (l : List VSRIRecord) (m : List (String × VSRIRecord))
    (k : String) :
    lookupKey (l.foldl dedupStep m) k = (lastWithKey l k).or (lookupKey m k) := by
  induction l generalizing m with
  | nil => simp [lastWithKey]
  | cons r t ih =>
    rw [List.foldl_cons, ih]
    unfold lastWithKey
    by_cases hk : recKey r = k
    · rw [List.filter_cons_of_pos (by simpa using hk), getLast?_cons_or,
        Option.or_assoc]
      have : (some r).or (lookupKey m k) = some r := rfl
      rw [this]
      show _ = ((List.filter _ t).getLast?).or (some r)
      unfold dedupStep
      rw [lookupKey_mapSet, if_pos hk.symm]
    · rw [List.filter_cons_of_neg (by simpa using hk)]
      unfold dedupStep
      rw [lookupKey_mapSet, if_neg (fun h => hk h.symm)]

theorem nodup_keysOf_foldl (l : List VSRIRecord) (m : List (String × VSRIRecord))
    (h : (keysOf m).Nodup) : (keysOf (l.foldl dedupStep m)).Nodup := by
  induction l generalizing m with
  | nil => exact h
  | cons r t ih =>
    rw [List.foldl_cons]
    exact ih _ (nodup_keysOf_mapSet _ _ _ h)

theorem foldl_entries_aux {Q : String × VSRIRecord → Prop} (l : List VSRIRecord)
    (m : List (String × VSRIRecord)) (hm : ∀ p ∈ m, Q p)
    (hl : ∀ r ∈ l, Q (recKey r, r)) : ∀ p ∈ l.foldl dedupStep m, Q p := by
  induction l generalizing m with
  | nil => exact hm
  | cons r t ih =>
    rw [List.foldl_cons]
    refine ih _ ?_ (fun x hx => hl x (List.mem_cons_of_mem _ hx))
    exact mapSet_forall _ _ _ hm (hl r (List.mem_cons_self _ _))

theorem dedup_entries (arr : List VSRIRecord) :
    ∀ p ∈ arr.foldl dedupStep [], p.1 = recKey p.2 ∧ p.2 ∈ arr := by
  refine foldl_entries_aux arr [] (by simp) ?_
  intro r hr
  exact ⟨rfl, hr⟩

theorem lookupKey_of_mem (m : List (String × VSRIRecord))
    (h : (keysOf m).Nodup) (p : String × VSRIRecord) (hp : p ∈ m) :
    lookupKey m p.1 = some p.2 := by
  induction m with
  | nil => cases hp
  | cons q rest ih =>
    rw [lookupKey_cons]
    rcases List.mem_cons.mp hp with hq | hq
    · subst hq
      rw [if_pos rfl]
    · have hne : q.1 ≠ p.1 := by
        intro he
        have hkeys := h
        unfold keysOf at hkeys
        rw [List.map_cons, List.nodup_cons] at hkeys
        exact hkeys.1 (he ▸ List.mem_map.mpr ⟨p, hq, rfl⟩)
      rw [if_neg hne]
      have hrest : (keysOf rest).Nodup := by
        unfold keysOf at h ⊢
        rw [List.map_cons, List.nodup_cons] at h
        exact h.2
      exact ih hrest hq

theorem dedup_map_recKey (arr : List VSRIRecord) :
    (deduplicateVSIRRecords arr).map recKey = keysOf (arr.foldl dedupStep []) := by
  rw [dedup_eq_foldl, List.map_map]
  exact List.map_congr_left (fun p hp => ((dedup_entries arr p hp).1).symm)

theorem dedup_keys_nodup (arr : List VSRIRecord) :
    ((deduplicateVSIRRecords arr).map recKey).Nodup := by
  rw [dedup_map_recKey]
  exact nodup_keysOf_foldl arr [] (by simp [keysOf])

theorem dedup_subset (arr : List VSRIRecord) :
    ∀ r ∈ deduplicateVSIRRecords arr, r ∈ arr := by
  intro r hr
  rw [dedup_eq_foldl] at hr
  rcases List.mem_map.mp hr with ⟨p, hp, hpr⟩
  exact hpr ▸ (dedup_entries arr p hp).2

theorem dedup_last_wins (arr : List VSRIRecord) :
    ∀ r ∈ deduplicateVSIRRecords arr, lastWithKey arr (recKey r) = some r := by
  intro r hr
  rw [dedup_eq_foldl] at hr
  rcases List.mem_map.mp hr with ⟨p, hp, hpr⟩
  have hkey := (dedup_entries arr p hp).1
  have hnodup := nodup_keysOf_foldl arr [] (by simp [keysOf])
  have hlook := lookupKey_of_mem _ hnodup p hp
  rw [lookupKey_foldl] at hlook
  have : lookupKey [] p.1 = none := rfl
  rw [this, Option.or_none] at hlook
  rw [hpr] at hkey hlook
  rw [← hkey]
  exact hlook

theorem dedup_keys_mem (arr : List VSRIRecord) (k : String) :
    k ∈ (deduplicateVSIRRecords arr).map recKey ↔ k ∈ arr.map recKey := by
  rw [dedup_map_recKey]
  constructor
  · intro hk
    rcases List.mem_map.mp hk with ⟨p, hp, hpk⟩
    rcases dedup_entries arr p hp with ⟨hkey, hmem⟩
    exact List.mem_map.mpr ⟨p.2, hmem, by rw [← hkey, hpk]⟩
  · intro hk
    rcases List.mem_map.mp hk with ⟨r, hr, hrk⟩
    have hfil : r ∈ arr.filter (fun x => recKey x == k) :=
      List.mem_filter.mpr ⟨hr, by simpa using hrk⟩
    have hne : arr.filter (fun x => recKey x == k) ≠ [] := by
      intro he
      rw [he] at hfil
      cases hfil
    have hlast : lastWithKey arr k ≠ none := by
      unfold lastWithKey
      rw [Ne, List.getLast?_eq_none_iff]
      exact hne
    have := lookupKey_foldl arr [] k
    have hnone : lookupKey [] k = none := rfl
    rw [hnone, Option.or_none] at this
    rcases ho : lastWithKey arr k with _ | w
    · exact absurd ho hlast
    · rw [ho] at this
      unfold lookupKey at this
      rcases hf : (arr.foldl dedupStep []).find? (fun p => p.1 == k) with _ | q
      · rw [hf] at this
        cases this
      · have hq1 : q.1 = k := by
          have := List.find?_some hf
          simpa using this
        have hqmem := List.mem_of_find?_eq_some hf
        exact List.mem_map.mpr ⟨q, hqmem, hq1⟩

/-!  ## Lemmas about the batch number allocator  -/

theorem foldr_max_append (A B : List Nat) :
    (A ++ B).foldr max 0 = max (A.foldr max 0) (B.foldr max 0) := by
  induction A with
  | nil => simp
  | cons a t ih =>
    rw [List.cons_append, List.foldr_cons, List.foldr_cons, ih, Nat.max_assoc]

theorem foldl_vb_records (yy : String) (l : List VSRIRecord) (a : Nat) :
    List.foldl
      (fun acc r =>
        match scanFirst (yy ++ "/V").toList r.vendorBatchNo.toList with
        | some n => max acc n
        | none => acc) a l =
    max a ((l.filterMap (fun r => vbMatch yy (JSVal.str r.vendorBatchNo))).foldr max 0) := by
  induction l generalizing a with
  | nil => simp
  | cons x t ih =>
    cases hfx : scanFirst (yy ++ "/V").toList x.vendorBatchNo.toList with
    | none =>
      simp only [List.foldl_cons, List.filterMap_cons, vbMatch, hfx]
      exact ih a
    | some n =>
      simp only [List.foldl_cons, List.filterMap_cons, vbMatch, hfx]
      rw [ih (max a n), List.foldr_cons, Nat.max_assoc]
      rfl

theorem foldl_vb_depts (yy : String) (l : List DeptOrder) (a : Nat) :
    List.foldl
      (fun acc d =>
        match vbMatch yy d.vendorBatchNo with
        | some n => max acc n
        | none => acc) a l =
    max a ((l.filterMap (fun d => vbMatch yy d.vendorBatchNo)).foldr max 0) := by
  induction l generalizing a with
  | nil => simp
  | cons x t ih =>
    cases hfx : vbMatch yy x.vendorBatchNo with
    | none =>
      simp only [List.foldl_cons, List.filterMap_cons, hfx]
      exact ih a
    | some n =>
      simp only [List.foldl_cons, List.filterMap_cons, hfx]
      rw [ih (max a n), List.foldr_cons, Nat.max_assoc]

theorem generateVendorBatchNo_eq (year : Nat) (records : List VSRIRecord)
    (vendorDeptOrders : List DeptOrder) :
    generateVendorBatchNo year records vendorDeptOrders =
      twoDigitYear year ++ "/V" ++
        toString ((batchNosInUse (twoDigitYear year) records vendorDeptOrders).foldr max 0 + 1) := by
  simp only [generateVendorBatchNo, batchNosInUse]
  rw [foldl_vb_records, foldl_vb_depts, List.filterMap_append, foldr_max_append,
    List.filterMap_map, List.filterMap_map, Nat.zero_max]
  rfl

/-!  ## Lemmas about auto-import  -/

theorem importItem_not_in_combos (poNo oaNo batchNo : JSVal)
    (currentCombinations : List String) (item : JSVal) (r : NewRec)
    (h : importItem poNo oaNo batchNo currentCombinations item = some r) :
    makeKey r.poNo r.itemCode ∉ currentCombinations := by
  simp only [importItem] at h
  split at h
  · cases h
  · rename_i hc
    rw [Option.some.injEq] at h
    subst h
    intro hmem
    exact hc (List.elem_iff.mpr hmem)

theorem importOrder_not_in_combos (vendorDeptOrders : List DeptOrder)
    (currentCombinations : List String) (order : JSVal) (r : NewRec)
    (h : r ∈ importOrder vendorDeptOrders currentCombinations order) :
    makeKey r.poNo r.itemCode ∉ currentCombinations := by
  unfold importOrder at h
  cases hpo : getOrderPoNo order with
  | none =>
    rw [hpo] at h
    cases h
  | some poNo =>
    rw [hpo] at h
    cases hitems : getOrderItems order with
    | nil =>
      rw [hitems] at h
      cases h
    | cons it its =>
      rw [hitems] at h
      rcases List.mem_filterMap.mp h with ⟨item, _, hsome⟩
      exact importItem_not_in_combos _ _ _ _ _ _ hsome

theorem sourceImport_not_in_combos (sourceData : List JSVal)
    (vendorDeptOrders : List DeptOrder) (currentCombinations : List String) (r : NewRec)
    (h : r ∈ (if sourceData.isEmpty then []
      else sourceData.flatMap (importOrder vendorDeptOrders currentCombinations))) :
    makeKey r.poNo r.itemCode ∉ currentCombinations := by
  by_cases hs : sourceData.isEmpty
  · rw [if_pos hs] at h
    cases h
  · rw [if_neg hs] at h
    rcases List.mem_flatMap.mp h with ⟨order, _, hmem⟩
    exact importOrder_not_in_combos _ _ _ _ hmem

/-!  ## Lemmas about the submit handler  -/

theorem getVendorBatchNoForPO_falsy (poNo : String)
    (vendorDeptOrders : List DeptOrder) (vendorIssues : List VendorIssue)
    (hDept : ∀ d ∈ vendorDeptOrders,
      jsStrictEqStr d.materialPurchasePoNo poNo = true → truthy d.vendorBatchNo = false)
    (hIss : ∀ i ∈ vendorIssues,
      jsStrictEqStr i.materialPurchasePoNo poNo = true → truthy i.vendorBatchNo = false) :
    truthy (getVendorBatchNoForPO poNo vendorDeptOrders vendorIssues) = false := by
  simp only [getVendorBatchNoForPO]
  by_cases hpo : poNo = ""
  · rw [if_pos hpo]
    rfl
  · rw [if_neg hpo]
    have hfromIssues :
        truthy (match vendorIssues.find?
            (fun i => jsStrictEqStr i.materialPurchasePoNo poNo) with
          | some i => if truthy i.vendorBatchNo then i.vendorBatchNo else JSVal.str ""
          | none => JSVal.str "") = false := by
      cases hfi : vendorIssues.find? (fun i => jsStrictEqStr i.materialPurchasePoNo poNo) with
      | none => rfl
      | some i =>
        have hp := List.find?_some hfi
        have hflag := hIss i (List.mem_of_find?_eq_some hfi) hp
        simp only [hflag, Bool.false_eq_true, if_false]
        rfl
    cases hfd : vendorDeptOrders.find? (fun d => jsStrictEqStr d.materialPurchasePoNo poNo) with
    | none => exact hfromIssues
    | some d =>
      have hp := List.find?_some hfd
      have hflag := hDept d (List.mem_of_find?_eq_some hfd) hp
      simp only [hflag, Bool.false_eq_true, if_false]
      exact hfromIssues

/-!  ## Lemmas about the auto-fill-indent rule  -/

theorem fillIndentOne_flag_iff (psirData : List Psir) (r : VSRIRecord) :
    (fillIndentOne psirData r).2 = true ↔ (fillIndentOne psirData r).1 ≠ r := by
  unfold fillIndentOne
  by_cases hc : r.poNo ≠ "" && r.indentNo = ""
  · rw [if_pos hc]
    cases hm : psirData.find? (fun p => jsTrim p.poNo == jsTrim r.poNo) with
    | none => simp
    | some m =>
      by_cases hflag : m.indentNo ≠ "" && m.indentNo != r.indentNo
      · have hne : m.indentNo ≠ r.indentNo := by
          have h2 := (Bool.and_eq_true _ _).mp hflag
          simpa using h2.2
        simp only [hflag, if_true]
        constructor
        · intro _ he
          exact hne (congrArg VSRIRecord.indentNo he)
        · intro _
          trivial
      · have hf := Bool.of_not_eq_true hflag
        simp only [hf, Bool.false_eq_true, if_false]
        simp
  · rw [if_neg hc]
    simp

/-!  ## Lemmas about the form indent rule  -/

theorem formIndentRule_frame (itemInput : ItemInput) (psirData : List Psir) :
    ∃ v, formIndentRule itemInput psirData = { itemInput with indentNo := v } := by
  unfold formIndentRule
  by_cases hg : itemInput.poNo = "" || psirData.isEmpty
  · rw [if_pos hg]
    exact ⟨itemInput.indentNo, rfl⟩
  · rw [if_neg hg]
    cases hm : psirData.find? (fun p => jsTrim p.poNo == jsTrim itemInput.poNo) with
    | none => exact ⟨itemInput.indentNo, rfl⟩
    | some m =>
      show ∃ v, (if m.indentNo ≠ "" then { itemInput with indentNo := m.indentNo }
        else itemInput) = { itemInput with indentNo := v }
      by_cases hi : m.indentNo ≠ ""
      · rw [if_pos hi]
        exact ⟨m.indentNo, rfl⟩
      · rw [if_neg hi]
        exact ⟨itemInput.indentNo, rfl⟩

/-!  ## Claim theorems  -/

/-- **C1.** For every input list of shipment records, after Load
Deduplication the output contains exactly one record per normalized
(PO number, item code) business key — the output's keys are duplicate-free
and are exactly the keys occurring in the input — and for each key the
surviving record is the one appearing last in input order
(last-write-wins). -/
theorem dedup_last_write_wins_C1 (arr : List VSRIRecord) :
    ((deduplicateVSIRRecords arr).map recKey).Nodup ∧
    (∀ k, k ∈ (deduplicateVSIRRecords arr).map recKey ↔ k ∈ arr.map recKey) ∧
    (∀ r ∈ deduplicateVSIRRecords arr, lastWithKey arr (recKey r) = some r) :=
  ⟨dedup_keys_nodup arr, fun k => dedup_keys_mem arr k, dedup_last_wins arr⟩

/-- Witness for C1 at the spec's own example: deduplicating
`[{poNo:"PO1",itemCode:"A",qty:1}, {poNo:"po1",itemCode:"a",qty:5}]` keeps
the later record. -/
theorem dedup_last_write_wins_C1_witness :
    lastWithKey [exA, exB] (recKey exB) = some exB :=
  (dedup_last_write_wins_C1 [exA, exB]).2.2 exB (by decide)

/-- **C9.** For every input list, the output of `deduplicateVSIRRecords`
has pairwise-distinct business keys and every output record is an element
of the input list: deduplication never fabricates or mutates records. -/
theorem dedup_invariants_C9 (arr : List VSRIRecord) :
    ((deduplicateVSIRRecords arr).map recKey).Nodup ∧
    (∀ r ∈ deduplicateVSIRRecords arr, r ∈ arr) :=
  ⟨dedup_keys_nodup arr, dedup_subset arr⟩

/-- Witness for C9 at a concrete input. -/
theorem dedup_invariants_C9_witness : exB ∈ [exA, exB] :=
  (dedup_invariants_C9 [exA, exB]).2 exB (by decide)

/-- **C3 counterexample.** The claim says a missing (absent/undefined/null)
input normalizes to the empty string in the resulting key.  In fact
`String(undefined)` is `"undefined"` and `String(null)` is `"null"`, so the
missing component contributes those words, not the empty string: the key
for `(undefined, "x")` is `"undefined|x"`, not `"|x"`. -/
theorem makeKey_missing_C3_counterexample :
    makeKey JSVal.undefined (JSVal.str "x") = "undefined|x" ∧
    makeKey JSVal.null (JSVal.str "x") = "null|x" ∧
    ("undefined|x" : String) ≠ "|x" ∧ ("null|x" : String) ≠ "|x" := by
  refine ⟨by decide, by decide, by decide, by decide⟩

/-- **C3 (amended).** `makeKey` is total on every JavaScript value (it is a
total Lean function on all of `JSVal`), trims and lower-cases the
stringification of both inputs and joins them with `"|"`; a missing
(absent/undefined/null) input is stringified to the word `"undefined"` or
`"null"` — not the empty string — before normalization. -/
theorem makeKey_total_normalizes_C3 (a b : JSVal) :
    makeKey a b = jsToLower (jsTrim (jsToString a)) ++ "|" ++ jsToLower (jsTrim (jsToString b)) ∧
    makeKey .undefined b = "undefined|" ++ jsToLower (jsTrim (jsToString b)) ∧
    makeKey .null b = "null|" ++ jsToLower (jsTrim (jsToString b)) ∧
    makeKey a .undefined = jsToLower (jsTrim (jsToString a)) ++ "|" ++ "undefined" ∧
    makeKey a .null = jsToLower (jsTrim (jsToString a)) ++ "|" ++ "null" := by
  refine ⟨rfl, ?_, ?_, ?_, ?_⟩
  · exact congrArg (fun s => s ++ jsToLower (jsTrim (jsToString b)))
      (by decide : (jsToLower (jsTrim "undefined") ++ "|" : String) = "undefined|")
  · exact congrArg (fun s => s ++ jsToLower (jsTrim (jsToString b)))
      (by decide : (jsToLower (jsTrim "null") ++ "|" : String) = "null|")
  · exact congrArg (fun s => jsToLower (jsTrim (jsToString a)) ++ "|" ++ s)
      (by decide : (jsToLower (jsTrim "undefined") : String) = "undefined")
  · exact congrArg (fun s => jsToLower (jsTrim (jsToString a)) ++ "|" ++ s)
      (by decide : (jsToLower (jsTrim "null") : String) = "null")

/-- **C4.** `generateVendorBatchNo` returns `YY/V<max+1>` where `YY` is the
current two-digit year and `max` is the largest captured digit value over
the `vendorBatchNo` fields of both collections that contain a match of
`YY/V<digits>` (the regex is unanchored, so "matching the pattern" means
containing an occurrence, exactly as `String.match` does); values with no
match for the current year — other years' numbers, malformed or non-string
values — are skipped without failing, and if nothing matches the result is
`YY/V1`.  The third conjunct is the spec's monotonicity example. -/
theorem generateVendorBatchNo_C4 (year : Nat) (records : List VSRIRecord)
    (vendorDeptOrders : List DeptOrder) :
    (generateVendorBatchNo year records vendorDeptOrders =
      twoDigitYear year ++ "/V" ++
        toString ((batchNosInUse (twoDigitYear year) records vendorDeptOrders).foldr max 0 + 1)) ∧
    (batchNosInUse (twoDigitYear year) records vendorDeptOrders = [] →
      generateVendorBatchNo year records vendorDeptOrders =
        twoDigitYear year ++ "/V" ++ "1") ∧
    generateVendorBatchNo 2024 [vbRec1, vbRec3] [] = "24/V4" := by
  refine ⟨generateVendorBatchNo_eq year records vendorDeptOrders, ?_, ?_⟩
  · intro he
    rw [generateVendorBatchNo_eq, he]
    rfl
  · decide

/-- Witness for C4: with no batch numbers anywhere, the first allocated
number is `26/V1`. -/
theorem generateVendorBatchNo_C4_witness :
    generateVendorBatchNo 2026 [] [] = twoDigitYear 2026 ++ "/V" ++ "1" :=
  (generateVendorBatchNo_C4 2026 [] []).2.1 rfl


/-- **C2 counterexample.** The claim says that when the same PO/item-code
pair occurs twice within the same auto-import run, the second occurrence is
skipped.  In fact `currentCombinations` is captured once at run start and
never updated during the run, so a source order repeating item code `A`
under PO `P1` produces **two** created records with the same business key
`p1|a`. -/
theorem runImport_duplicate_C2_counterexample :
    (runImport (some "u") none [dupOrder] [] [] []).map
      (fun r => makeKey r.poNo r.itemCode) = ["p1|a", "p1|a"] := by decide

/-- **C2 (amended).** An auto-import run never creates a record whose
business key is in the deduplication key set captured at run start (the
current record set's keys); a key occurring twice within the same run is
**not** deduplicated — the cache is not refreshed mid-run, so every
within-run occurrence of a fresh key is created. -/
theorem runImport_skips_existing_C2 (userUid : Option String)
    (providedSource : Option (List JSVal)) (purchaseOrders purchaseData : List JSVal)
    (vendorDeptOrders : List DeptOrder) (currentCombinations : List String) :
    ∀ r ∈ runImport userUid providedSource purchaseOrders purchaseData
        vendorDeptOrders currentCombinations,
      makeKey r.poNo r.itemCode ∉ currentCombinations := by
  intro r hr
  cases userUid with
  | none =>
    simp only [runImport] at hr
    cases hr
  | some u =>
    simp only [runImport] at hr
    exact sourceImport_not_in_combos _ _ _ _ hr

/-- Witness for C2: the duplicated-item order run against a key set that
does not contain `p1|a` creates records whose key avoids that set. -/
theorem runImport_skips_existing_C2_witness :
    makeKey impRec.poNo impRec.itemCode ∉ (["other"] : List String) := by
  have hrun : runImport (some "u") none [dupOrder] [] [] ["other"] = [impRec, impRec] := rfl
  exact runImport_skips_existing_C2 (some "u") none [dupOrder] [] [] ["other"] impRec
    (by rw [hrun]; exact List.mem_cons_self _ _)


/-- **C5 counterexample.** The claim quantifies over every form state with a
non-empty invoice/challan number, an empty vendor batch number and no
record resolving a batch number for the form's PO.  A form whose PO number
is empty satisfies all of that (nothing resolves for an empty PO), yet the
resolution check is guarded by `finalInput.poNo` being truthy, so submit
does **not** fail: it performs an `add` store write. -/
theorem handleSubmit_empty_po_C5_counterexample :
    jsTrim inpC5.invoiceDcNo ≠ "" ∧ jsTrim inpC5.vendorBatchNo = "" ∧
    truthy (getVendorBatchNoForPO inpC5.poNo [] []) = false ∧
    handleSubmit (some "u") inpC5 [] [] [] = SubmitResult.addRec inpC5 := by
  refine ⟨by decide, by decide, by decide, by decide⟩

/-- **C5 (amended).** For every form state with a non-empty invoice/challan
number, an empty vendor batch number **and a non-empty PO number**, when no
department or issue record with that exact PO carries a truthy vendor batch
number, submit fails with the user-facing batch-number error and performs
no store write (neither add nor update). -/
theorem handleSubmit_requires_batch_C5 (userUid : String) (itemInput : ItemInput)
    (records : List VSRIRecord) (vendorDeptOrders : List DeptOrder)
    (vendorIssues : List VendorIssue)
    (hInv : jsTrim itemInput.invoiceDcNo ≠ "")
    (hVB : jsTrim itemInput.vendorBatchNo = "")
    (hPO : itemInput.poNo ≠ "")
    (hDept : ∀ d ∈ vendorDeptOrders,
      jsStrictEqStr d.materialPurchasePoNo itemInput.poNo = true →
        truthy d.vendorBatchNo = false)
    (hIss : ∀ i ∈ vendorIssues,
      jsStrictEqStr i.materialPurchasePoNo itemInput.poNo = true →
        truthy i.vendorBatchNo = false) :
    handleSubmit (some userUid) itemInput records vendorDeptOrders vendorIssues =
      SubmitResult.errNoBatch := by
  have hfal := getVendorBatchNoForPO_falsy itemInput.poNo vendorDeptOrders vendorIssues
    hDept hIss
  simp [handleSubmit, hInv, hVB, hPO, hfal]

/-- Witness for C5 (amended): a form for PO `P9` with an invoice number and
no batch, against a department collection whose only order is for a
different PO, is rejected. -/
theorem handleSubmit_requires_batch_C5_witness :
    handleSubmit (some "u") inpW5 [] [deptW5] [] = SubmitResult.errNoBatch :=
  handleSubmit_requires_batch_C5 "u" inpW5 [] [deptW5] [] (by decide) (by decide)
    (by decide) (by decide) (by decide)


/-- **C6.** When the purchase-data reference collection is empty, the
primary record set is non-empty, the operator is signed in and the
auto-delete toggle is on: a declined confirmation issues zero deletes, and
a granted confirmation issues exactly one delete per existing (truthy,
pairwise-distinct) record id.  (Store-assigned ids are unique and
non-empty; the `Nodup` hypothesis records that store invariant.) -/
theorem autoDelete_C6 (userUid : String) (purchaseData : List JSVal)
    (records : List VSRIRecord)
    (hpd : purchaseData = []) (hrec : records ≠ [])
    (hnd : (records.filterMap
      (fun rec => if rec.id = "" then none else some rec.id)).Nodup) :
    autoDeleteIds true (some userUid) purchaseData records false = [] ∧
    ∀ i : String,
      (autoDeleteIds true (some userUid) purchaseData records true).count i =
        if i ≠ "" ∧ ∃ r ∈ records, r.id = i then 1 else 0 := by
  have hlen : records.length > 0 := List.length_pos.mpr hrec
  constructor
  · simp [autoDeleteIds, hpd, hlen]
  · intro i
    have hlist : autoDeleteIds true (some userUid) purchaseData records true =
        records.filterMap (fun rec => if rec.id = "" then none else some rec.id) := by
      simp [autoDeleteIds, hpd, hlen]
    rw [hlist]
    have hmem_iff : i ∈ records.filterMap
        (fun rec => if rec.id = "" then none else some rec.id) ↔
        (i ≠ "" ∧ ∃ r ∈ records, r.id = i) := by
      rw [List.mem_filterMap]
      constructor
      · rintro ⟨r, hr, hsome⟩
        by_cases hid : r.id = ""
        · rw [if_pos hid] at hsome
          cases hsome
        · rw [if_neg hid] at hsome
          rw [Option.some.injEq] at hsome
          subst hsome
          exact ⟨hid, r, hr, rfl⟩
      · rintro ⟨hne, r, hr, hid⟩
        refine ⟨r, hr, ?_⟩
        rw [if_neg (hid ▸ hne), hid]
    by_cases hmem : i ∈ records.filterMap
        (fun rec => if rec.id = "" then none else some rec.id)
    · rw [List.count_eq_one_of_mem hnd hmem, if_pos (hmem_iff.mp hmem)]
    · rw [List.count_eq_zero.mpr hmem, if_neg (fun hc => hmem (hmem_iff.mpr hc))]

/-- Witness for C6 at two concrete records with ids `1` and `2`. -/
theorem autoDelete_C6_witness :
    autoDeleteIds true (some "u") [] [recW1, recW2] false = [] ∧
    (autoDeleteIds true (some "u") [] [recW1, recW2] true).count "1" = 1 := by
  have h := autoDelete_C6 "u" [] [recW1, recW2] rfl (by decide) (by decide)
  refine ⟨h.1, ?_⟩
  have h2 := h.2 "1"
  rw [if_pos (by decide : ("1" : String) ≠ "" ∧ ∃ r ∈ [recW1, recW2], r.id = "1")] at h2
  exact h2


/-- **C7 counterexample.** The claim says only records whose indent number
the rule changed receive a persistence write.  In fact, once any record
changed, the source iterates over **all** of `updatedRecords` and calls
`updateVSIRRecord` for every record with a truthy id: here `recW2` is left
unchanged by the rule (`fillIndentOne` returns it with a `false` flag), yet
the rule issues writes for ids `1` **and** `2`. -/
theorem autoFillIndent_writes_all_C7_counterexample :
    fillIndentOne [psirW] recW2 = (recW2, false) ∧
    (autoFillIndent (some "u") [psirW] [recW1, recW2]).2.map (fun w => w.1) =
      ["1", "2"] := by
  refine ⟨by decide, by decide⟩

/-- **C7 (amended).** When the auto-fill-indent rule fires (user signed in,
PSIR data and primary records both non-empty): a record's update flag is
set exactly when the rule changed it; if no record changed, the record set
is untouched and no persistence write is issued; if at least one record
changed, the rule replaces the record set with the per-record results and
issues one persistence write for **every** record with a non-empty id —
including unchanged records, which are written back with their unchanged
value. -/
theorem autoFillIndent_C7 (userUid : String) (psirData : List Psir)
    (records : List VSRIRecord) (hp : psirData ≠ []) (hr : records ≠ []) :
    (∀ r, (fillIndentOne psirData r).2 = true ↔ (fillIndentOne psirData r).1 ≠ r) ∧
    ((∀ r ∈ records, (fillIndentOne psirData r).2 = false) →
      autoFillIndent (some userUid) psirData records = (records, [])) ∧
    ((∃ r ∈ records, (fillIndentOne psirData r).2 = true) →
      autoFillIndent (some userUid) psirData records =
        (records.map (fun r => (fillIndentOne psirData r).1),
         (records.map (fun r => (fillIndentOne psirData r).1)).filterMap
           (fun rec => if rec.id = "" then none else some (rec.id, rec)))) := by
  have hpe : psirData.isEmpty = false := List.isEmpty_eq_false.mpr hp
  have hre : records.isEmpty = false := List.isEmpty_eq_false.mpr hr
  refine ⟨fillIndentOne_flag_iff psirData, ?_, ?_⟩
  · intro hall
    have hany : (records.map (fillIndentOne psirData)).any (fun p => p.2) = false := by
      rw [List.any_eq_false]
      intro p hpmem
      rcases List.mem_map.mp hpmem with ⟨r, hrm, hpr⟩
      rw [← hpr]
      simp [hall r hrm]
    simp [autoFillIndent, hpe, hre, hany]
  · rintro ⟨r0, hr0, hflag⟩
    have hany : (records.map (fillIndentOne psirData)).any (fun p => p.2) = true :=
      List.any_eq_true.mpr ⟨_, List.mem_map.mpr ⟨r0, hr0, rfl⟩, hflag⟩
    simp [autoFillIndent, hpe, hre, hany, List.map_map, Function.comp]
    rfl

/-- Witness for C7 (amended): with `recW1` changed, the rule's output is the
mapped record set and a write list covering every record. -/
theorem autoFillIndent_C7_witness :
    autoFillIndent (some "u") [psirW] [recW1, recW2] =
      ([recW1, recW2].map (fun r => (fillIndentOne [psirW] r).1),
       ([recW1, recW2].map (fun r => (fillIndentOne [psirW] r).1)).filterMap
         (fun rec => if rec.id = "" then none else some (rec.id, rec))) :=
  (autoFillIndent_C7 "u" [psirW] [recW1, recW2] (by decide) (by decide)).2.2
    ⟨recW1, by decide, by decide⟩


/-- **C8 counterexample.** The claim says the form's indent field is
populated from a matching PSIR record only if it is currently empty.  The
rule has no emptiness check: a form holding indent `OLD` for PO `P1` gets
its indent overwritten with the match's `NEW`. -/
theorem formIndentRule_overwrites_C8_counterexample :
    form8.indentNo = "OLD" ∧ (formIndentRule form8 [psirNew]).indentNo = "NEW" := by
  refine ⟨rfl, by decide⟩

/-- **C8 (amended).** When the form's PO-number field changes and a
prior-receipt record matches that PO exactly (trimmed), the form's
indent-number field is set from the match whenever the match's indent is
non-empty, **regardless of the form's current indent value** (a non-empty
indent field is overwritten); no other form field is touched, and with no
matching PSIR record the form is unchanged. -/
theorem formIndentRule_C8 (itemInput : ItemInput) (psirData : List Psir) :
    ((formIndentRule itemInput psirData).receivedDate = itemInput.receivedDate ∧
     (formIndentRule itemInput psirData).poNo = itemInput.poNo ∧
     (formIndentRule itemInput psirData).oaNo = itemInput.oaNo ∧
     (formIndentRule itemInput psirData).purchaseBatchNo = itemInput.purchaseBatchNo ∧
     (formIndentRule itemInput psirData).vendorBatchNo = itemInput.vendorBatchNo ∧
     (formIndentRule itemInput psirData).dcNo = itemInput.dcNo ∧
     (formIndentRule itemInput psirData).invoiceDcNo = itemInput.invoiceDcNo ∧
     (formIndentRule itemInput psirData).vendorName = itemInput.vendorName ∧
     (formIndentRule itemInput psirData).itemName = itemInput.itemName ∧
     (formIndentRule itemInput psirData).itemCode = itemInput.itemCode ∧
     (formIndentRule itemInput psirData).qtyReceived = itemInput.qtyReceived ∧
     (formIndentRule itemInput psirData).okQty = itemInput.okQty ∧
     (formIndentRule itemInput psirData).reworkQty = itemInput.reworkQty ∧
     (formIndentRule itemInput psirData).rejectQty = itemInput.rejectQty ∧
     (formIndentRule itemInput psirData).grnNo = itemInput.grnNo ∧
     (formIndentRule itemInput psirData).remarks = itemInput.remarks) ∧
    (∀ m : Psir, itemInput.poNo ≠ "" →
      psirData.find? (fun p => jsTrim p.poNo == jsTrim itemInput.poNo) = some m →
      m.indentNo ≠ "" →
      (formIndentRule itemInput psirData).indentNo = m.indentNo) ∧
    ((∀ p ∈ psirData, jsTrim p.poNo ≠ jsTrim itemInput.poNo) →
      formIndentRule itemInput psirData = itemInput) := by
  refine ⟨?_, ?_, ?_⟩
  · rcases formIndentRule_frame itemInput psirData with ⟨v, hv⟩
    rw [hv]
    exact ⟨rfl, rfl, rfl, rfl, rfl, rfl, rfl, rfl, rfl, rfl, rfl, rfl, rfl, rfl,
      rfl, rfl⟩
  · intro m hpo hm hind
    have hne : psirData ≠ [] := by
      intro he
      rw [he] at hm
      cases hm
    have hg : (decide (itemInput.poNo = "") || psirData.isEmpty) = false := by
      simp [hpo, List.isEmpty_eq_false.mpr hne]
    unfold formIndentRule
    simp only [hg, Bool.false_eq_true, if_false, hm]
    rw [if_pos hind]
  · intro hall
    have hnone : psirData.find? (fun p => jsTrim p.poNo == jsTrim itemInput.poNo) = none := by
      rw [List.find?_eq_none]
      intro p hp
      simpa using hall p hp
    unfold formIndentRule
    by_cases hg : itemInput.poNo = "" || psirData.isEmpty
    · rw [if_pos hg]
    · rw [if_neg hg]
      simp only [hnone]

/-- Witness for C8 (amended): the matching PSIR document's indent number
lands in the form even though the form already held one. -/
theorem formIndentRule_C8_witness :
    (formIndentRule form8 [psirNew]).indentNo = psirNew.indentNo :=
  (formIndentRule_C8 form8 [psirNew]).2.1 psirNew (by decide) (by decide) (by decide)

/-- **C10.** When the item-name field is changed via the form handler, the
form's item-name becomes the chosen value; the item-code is set to the
item code of the (unique) item-master entry whose `itemName` equals the
chosen value exactly, and is reset to the empty string when no entry
matches; no other form field is touched. -/
theorem handleChangeItemName_C10 (itemMaster : List ItemEntry) (value : String)
    (prev : ItemInput) :
    (handleChangeItemName itemMaster value prev).itemName = value ∧
    (∀ e ∈ itemMaster, e.itemName = value →
      (∀ e2 ∈ itemMaster, e2.itemName = value → e2 = e) →
      (handleChangeItemName itemMaster value prev).itemCode = e.itemCode) ∧
    ((∀ e ∈ itemMaster, e.itemName ≠ value) →
      (handleChangeItemName itemMaster value prev).itemCode = "") ∧
    ((handleChangeItemName itemMaster value prev).receivedDate = prev.receivedDate ∧
     (handleChangeItemName itemMaster value prev).indentNo = prev.indentNo ∧
     (handleChangeItemName itemMaster value prev).poNo = prev.poNo ∧
     (handleChangeItemName itemMaster value prev).oaNo = prev.oaNo ∧
     (handleChangeItemName itemMaster value prev).purchaseBatchNo = prev.purchaseBatchNo ∧
     (handleChangeItemName itemMaster value prev).vendorBatchNo = prev.vendorBatchNo ∧
     (handleChangeItemName itemMaster value prev).dcNo = prev.dcNo ∧
     (handleChangeItemName itemMaster value prev).invoiceDcNo = prev.invoiceDcNo ∧
     (handleChangeItemName itemMaster value prev).vendorName = prev.vendorName ∧
     (handleChangeItemName itemMaster value prev).qtyReceived = prev.qtyReceived ∧
     (handleChangeItemName itemMaster value prev).okQty = prev.okQty ∧
     (handleChangeItemName itemMaster value prev).reworkQty = prev.reworkQty ∧
     (handleChangeItemName itemMaster value prev).rejectQty = prev.rejectQty ∧
     (handleChangeItemName itemMaster value prev).grnNo = prev.grnNo ∧
     (handleChangeItemName itemMaster value prev).remarks = prev.remarks) := by
  refine ⟨rfl, ?_, ?_, ?_⟩
  · intro e he hename huniq
    unfold handleChangeItemName
    cases hf : itemMaster.find? (fun item => item.itemName == value) with
    | none =>
      rw [List.find?_eq_none] at hf
      exact absurd (by simpa using hename) (by simpa using hf e he)
    | some f =>
      have hfp := List.find?_some hf
      have heq : f = e := huniq f (List.mem_of_find?_eq_some hf) (by simpa using hfp)
      simp only [hf, heq]
  · intro hnone
    have hf : itemMaster.find? (fun item => item.itemName == value) = none := by
      rw [List.find?_eq_none]
      intro e he
      simpa using hnone e he
    unfold handleChangeItemName
    simp only [hf]
  · exact ⟨rfl, rfl, rfl, rfl, rfl, rfl, rfl, rfl, rfl, rfl, rfl, rfl, rfl, rfl, rfl⟩

/-- Witness for C10: choosing `Widget` from an item master holding the
single entry `(Widget, W1)` fills the item code `W1`. -/
theorem handleChangeItemName_C10_witness :
    (handleChangeItemName [entryW] "Widget" blankInput).itemCode = entryW.itemCode :=
  (handleChangeItemName_C10 [entryW] "Widget" blankInput).2.1 entryW (by decide)
    (by decide) (by decide)

end VSIR
